import Mathlib

/-!
Shallow embedding of the request-dispatch and pagination subsystem of the
coinbase-js client (src/coinbase.ts, src/results.ts, src/methodInitializers.ts).

JavaScript runtime values are modelled by an inductive `Json` type; JS objects
are association lists in insertion order.  The asynchronous, stateful parts of
the client (the transport, the shared mutable OAuth configuration, the trace of
issued HTTP calls) are modelled by explicit state passing: a computation of
type `M α` maps a state (transport oracle, call counter, call trace, client
options) to a result `Except JsError α` together with the updated state.
-/

namespace Coinbase

/-- JSON-ish JavaScript runtime values (including `undefined`, which the
client's query-string and serialization logic treats specially). -/
inductive Json where
  | str : String → Json
  | num : Int → Json
  | bool : Bool → Json
  | null : Json
  | undefValue : Json
  | obj : List (String × Json) → Json
  | arr : List Json → Json

/-- JavaScript truthiness of a runtime value. -/
def truthy : Json → Bool
  | .str s => !(s == "")
  | .num n => !(n == 0)
  | .bool b => b
  | .null => false
  | .undefValue => false
  | .obj _ => true
  | .arr _ => true

/-- Property access `j.name` on a runtime value: field of an object, or
`undefined` for a missing field or a non-object receiver. -/
def getField : Json → String → Json
  | .obj fields, name =>
    match fields.lookup name with
    | some v => v
    | none => .undefValue
  | _, _ => .undefValue

/-- Whether a value is `undefined` (JS `=== undefined`). -/
def isUndefValue : Json → Bool
  | .undefValue => true
  | _ => false

/-- Whether a value is an array (JS `Array.isArray`). -/
def isArrayB : Json → Bool
  | .arr _ => true
  | _ => false

/-- Elements of an array value (only applied after an `Array.isArray` check). -/
def arrElems : Json → List Json
  | .arr es => es
  | _ => []

mutual
/-- JS `String(...)` conversion of one array element: `null` and `undefined`
render as the empty string inside arrays. -/
def jsonItemToString : Json → String
  | .null => ""
  | .undefValue => ""
  | .str s => s
  | .num n => toString n
  | .bool b => cond b "true" "false"
  | .obj _ => "[object Object]"
  | .arr xs => jsonArrToString xs

/-- JS array-to-string conversion: elements joined by commas. -/
def jsonArrToString : List Json → String
  | [] => ""
  | [x] => jsonItemToString x
  | x :: y :: rest => jsonItemToString x ++ "," ++ jsonArrToString (y :: rest)
end

/-- JS `String(...)` conversion, as used by template literals and the
path-substitution code. -/
def jsonToString : Json → String
  | .str s => s
  | .num n => toString n
  | .bool b => cond b "true" "false"
  | .null => "null"
  | .undefValue => "undefined"
  | .obj _ => "[object Object]"
  | .arr xs => jsonArrToString xs

/-- Minimal JSON string-literal escaping for `JSON.stringify`. -/
def jsStringEscape (s : String) : String :=
  String.mk (s.toList.foldr
    (fun c acc =>
      if c = '"' then '\\' :: '"' :: acc
      else if c = '\\' then '\\' :: '\\' :: acc
      else c :: acc) [])

mutual
/-- Model of `JSON.stringify` on a value appearing inside a structure (where
`undefined` serializes as `null`, as happens in arrays). -/
def jsonStringify : Json → String
  | .str s => "\"" ++ jsStringEscape s ++ "\""
  | .num n => toString n
  | .bool b => cond b "true" "false"
  | .null => "null"
  | .undefValue => "null"
  | .obj fs => "\x7b" ++ stringifyFields fs ++ "\x7d"
  | .arr xs => "[" ++ stringifyElems xs ++ "]"

/-- Object members, in insertion order; members whose value is `undefined`
are skipped by `JSON.stringify`. -/
def stringifyFields : List (String × Json) → String
  | [] => ""
  | (k, v) :: rest =>
    if isUndefValue v then stringifyFields rest
    else
      let item := "\"" ++ jsStringEscape k ++ "\":" ++ jsonStringify v
      match rest.filter (fun kv => !(isUndefValue kv.2)) with
      | [] => item
      | _ => item ++ "," ++ stringifyFields rest

/-- Array elements, comma separated. -/
def stringifyElems : List Json → String
  | [] => ""
  | [x] => jsonStringify x
  | x :: y :: rest => jsonStringify x ++ "," ++ stringifyElems (y :: rest)
end

/-- HTTP request methods supported by the client. -/
inductive Method where
  | GET
  | POST
  | PUT
  | DELETE
deriving DecidableEq

/-- The string the method interpolates into the signature payload. -/
def methodString : Method → String
  | .GET => "GET"
  | .POST => "POST"
  | .PUT => "PUT"
  | .DELETE => "DELETE"

/-- CoinbaseRequestArguments: a method, a path template, and an optional
argument mapping (a JS object, kept in insertion order). -/
structure CoinbaseRequestArguments where
  method : Method
  path : String
  args : Option (List (String × Json))

/-- JS `path.split("/")` on the character level (structurally recursive, so
that concrete paths evaluate inside the kernel). -/
def splitSlashAux : List Char → List Char → List String
  | [], acc => [String.mk acc.reverse]
  | c :: rest, acc =>
    if c = '/' then String.mk acc.reverse :: splitSlashAux rest []
    else splitSlashAux rest (c :: acc)

/-- JS `path.split("/")`. -/
def splitSlash (s : String) : List String := splitSlashAux s.toList []

/-- JS `part.startsWith(":")`. -/
def startsWithColon (s : String) : Bool :=
  match s.toList with
  | [] => false
  | c :: _ => c = ':'

/-- Remove a key from a JS-object association list (JS `delete args[k]`). -/
def eraseKey (k : String) : List (String × Json) → List (String × Json)
  | [] => []
  | (k', v) :: rest => if k' = k then eraseKey k rest else (k', v) :: eraseKey k rest

/-- The placeholder-substitution loop of `Coinbase.request`: walk the parts of
the split path; a part starting with `:` names an argument that must be
present in the mapping (else `missing path argument`), is interpolated with
JS `String(...)` conversion, and is deleted from the mapping. -/
def substPathParts : List String → List (String × Json) →
    Except String (List String × List (String × Json))
  | [], args => .ok ([], args)
  | part :: rest, args =>
    if startsWithColon part then
      let argName := part.drop 1
      match args.lookup argName with
      | some v =>
        match substPathParts rest (eraseKey argName args) with
        | .ok (parts, residual) => .ok (jsonToString v :: parts, residual)
        | .error e => .error e
      | none => .error ("missing path argument: " ++ argName)
    else
      match substPathParts rest args with
      | .ok (parts, residual) => .ok (part :: parts, residual)
      | .error e => .error e

/-- One step of the query-string `reduce` in `Coinbase.request`: skip entries
whose value is `undefined`; append `k=v`, plus `&` whenever the entry's index
is below `argLength - 1`. -/
def queryStep (argLength : Nat) (previous : String) (ic : Nat × String × Json) : String :=
  if isUndefValue ic.2.2 then previous
  else
    let next := previous ++ ic.2.1 ++ "=" ++ jsonToString ic.2.2
    if ic.1 < argLength - 1 then next ++ "&" else next

/-- The query string built from the residual arguments of a GET request
(the `reduce` over `Object.entries(args)` with initial value `"?"`). -/
def buildQuery (args : List (String × Json)) : String :=
  args.enum.foldl (queryStep args.length) "?"

/-- The argument-resolution phase of `Coinbase.request`: with no argument
mapping the parameters pass through untouched; otherwise placeholders are
substituted, and residual arguments become a query string (GET) or the
request body (POST only — the code has no branch for PUT/DELETE, whose
residual arguments are dropped). -/
def resolveRequest (parameters : CoinbaseRequestArguments) :
    Except String CoinbaseRequestArguments :=
  match parameters.args with
  | none => .ok ⟨parameters.method, parameters.path, none⟩
  | some args0 =>
    match substPathParts (splitSlash parameters.path) args0 with
    | .error e => .error e
    | .ok (parts, residual) =>
      let path := String.intercalate "/" parts
      if residual.length > 0 then
        if parameters.method = .GET then
          .ok ⟨parameters.method, path ++ buildQuery residual, none⟩
        else if parameters.method = .POST then
          .ok ⟨parameters.method, path, some residual⟩
        else
          .ok ⟨parameters.method, path, none⟩
      else
        .ok ⟨parameters.method, path, none⟩

/-- Names of the `:name` placeholder segments of a path template. -/
def placeholderNames (path : String) : List String :=
  (((splitSlash path)).filter (fun p => startsWithColon p)).map (fun p => p.drop 1)

/-! SHA-256 and HMAC-SHA256, as performed by `createHmac("sha256", secret)`
in `apiKeyRequest`.  Machine words are `Nat` reduced mod `2 ^ 32`. -/

/-- Truncate to a 32-bit word. -/
def w32 (x : Nat) : Nat := x % 4294967296

/-- Right-rotation of a 32-bit word. -/
def rotr32 (n x : Nat) : Nat := w32 ((x >>> n) ||| (x <<< (32 - n)))

/-- Bitwise complement of a 32-bit word (the argument is below `2 ^ 32`). -/
def bnot32 (x : Nat) : Nat := 4294967295 - x

/-- SHA-256 `Ch` function. -/
def ch32 (x y z : Nat) : Nat := (x &&& y) ^^^ (bnot32 x &&& z)

/-- SHA-256 `Maj` function. -/
def maj32 (x y z : Nat) : Nat := (x &&& y) ^^^ (x &&& z) ^^^ (y &&& z)

/-- SHA-256 big sigma-0. -/
def bigS0 (x : Nat) : Nat := rotr32 2 x ^^^ rotr32 13 x ^^^ rotr32 22 x

/-- SHA-256 big sigma-1. -/
def bigS1 (x : Nat) : Nat := rotr32 6 x ^^^ rotr32 11 x ^^^ rotr32 25 x

/-- SHA-256 small sigma-0. -/
def smallS0 (x : Nat) : Nat := rotr32 7 x ^^^ rotr32 18 x ^^^ (x >>> 3)

/-- SHA-256 small sigma-1. -/
def smallS1 (x : Nat) : Nat := rotr32 17 x ^^^ rotr32 19 x ^^^ (x >>> 10)

/-- SHA-256 round constants. -/
def sha256K : List Nat :=
  [
   1116352408, 1899447441, 3049323471, 3921009573, 961987163,
   1508970993, 2453635748, 2870763221, 3624381080, 310598401,
   607225278, 1426881987, 1925078388, 2162078206, 2614888103,
   3248222580, 3835390401, 4022224774, 264347078, 604807628,
   770255983, 1249150122, 1555081692, 1996064986, 2554220882,
   2821834349, 2952996808, 3210313671, 3336571891, 3584528711,
   113926993, 338241895, 666307205, 773529912, 1294757372,
   1396182291, 1695183700, 1986661051, 2177026350, 2456956037,
   2730485921, 2820302411, 3259730800, 3345764771, 3516065817,
   3600352804, 4094571909, 275423344, 430227734, 506948616,
   659060556, 883997877, 958139571, 1322822218, 1537002063,
   1747873779, 1955562222, 2024104815, 2227730452, 2361852424,
   2428436474, 2756734187, 3204031479, 3329325298]

/-- SHA-256 initial hash value. -/
def sha256IV : List Nat :=
  [
   1779033703, 3144134277, 1013904242, 2773480762, 1359893119,
   2600822924, 528734635, 1541459225]

/-- Extend a 16-word block by `n` further schedule words. -/
def extendSchedule : Nat → List Nat → List Nat
  | 0, ws => ws
  | n + 1, ws =>
    let i := ws.length
    let w := w32 (smallS1 (ws.getD (i - 2) 0) + ws.getD (i - 7) 0 +
                  smallS0 (ws.getD (i - 15) 0) + ws.getD (i - 16) 0)
    extendSchedule n (ws ++ [w])

/-- One SHA-256 round on the eight working variables. -/
def sha256Round (st : Nat × Nat × Nat × Nat × Nat × Nat × Nat × Nat)
    (kw : Nat × Nat) : Nat × Nat × Nat × Nat × Nat × Nat × Nat × Nat :=
  let (a, b, c, d, e, f, g, h) := st
  let t1 := w32 (h + bigS1 e + ch32 e f g + kw.1 + kw.2)
  let t2 := w32 (bigS0 a + maj32 a b c)
  (w32 (t1 + t2), a, b, c, w32 (d + t1), e, f, g)

/-- SHA-256 compression of one 16-word block into the hash state. -/
def sha256Compress (h : List Nat) (block : List Nat) : List Nat :=
  let ws := extendSchedule 48 block
  let init := (h.getD 0 0, h.getD 1 0, h.getD 2 0, h.getD 3 0,
               h.getD 4 0, h.getD 5 0, h.getD 6 0, h.getD 7 0)
  let fin := (sha256K.zip ws).foldl sha256Round init
  [w32 (h.getD 0 0 + fin.1), w32 (h.getD 1 0 + fin.2.1),
   w32 (h.getD 2 0 + fin.2.2.1), w32 (h.getD 3 0 + fin.2.2.2.1),
   w32 (h.getD 4 0 + fin.2.2.2.2.1), w32 (h.getD 5 0 + fin.2.2.2.2.2.1),
   w32 (h.getD 6 0 + fin.2.2.2.2.2.2.1), w32 (h.getD 7 0 + fin.2.2.2.2.2.2.2)]

/-- Big-endian 64-bit length encoding, as eight bytes. -/
def be64 (n : Nat) : List Nat :=
  [(n >>> 56) &&& 255, (n >>> 48) &&& 255, (n >>> 40) &&& 255, (n >>> 32) &&& 255,
   (n >>> 24) &&& 255, (n >>> 16) &&& 255, (n >>> 8) &&& 255, n &&& 255]

/-- SHA-256 padding of a byte sequence. -/
def sha256Pad (msg : List Nat) : List Nat :=
  let L := msg.length
  let z := (119 - (L % 64)) % 64
  msg ++ 128 :: List.replicate z 0 ++ be64 (8 * L)

/-- Pack bytes into big-endian 32-bit words. -/
def bytesToWords : List Nat → List Nat
  | b0 :: b1 :: b2 :: b3 :: rest =>
    ((b0 <<< 24) ||| (b1 <<< 16) ||| (b2 <<< 8) ||| b3) :: bytesToWords rest
  | _ => []

/-- Split a word sequence into 16-word blocks (structural recursion on a
fuel bound that dominates the number of blocks). -/
def chunkWordsGo : Nat → List Nat → List (List Nat)
  | 0, _ => []
  | _, [] => []
  | fuel + 1, w :: rest => ((w :: rest).take 16) :: chunkWordsGo fuel ((w :: rest).drop 16)

/-- Split a word sequence into 16-word blocks. -/
def chunkWords (ws : List Nat) : List (List Nat) := chunkWordsGo ws.length ws

/-- Bytes of one 32-bit word, big endian. -/
def wordBytes (w : Nat) : List Nat :=
  [(w >>> 24) &&& 255, (w >>> 16) &&& 255, (w >>> 8) &&& 255, w &&& 255]

/-- SHA-256 digest of a byte sequence, as 32 bytes. -/
def sha256Bytes (msg : List Nat) : List Nat :=
  let blocks := chunkWords (bytesToWords (sha256Pad msg))
  let hs := blocks.foldl sha256Compress sha256IV
  (hs.map wordBytes).flatten

/-- Lowercase hexadecimal digit. -/
def hexDigit (n : Nat) : Char :=
  if n < 10 then Char.ofNat (48 + n) else Char.ofNat (87 + n)

/-- Lowercase hexadecimal rendering of a byte sequence (`digest("hex")`). -/
def bytesToHex (bs : List Nat) : String :=
  String.mk (bs.foldr (fun b acc => hexDigit (b / 16) :: hexDigit (b % 16) :: acc) [])

/-- Bytes of a string (the signature payloads here are ASCII). -/
def strBytes (s : String) : List Nat := s.toList.map Char.toNat

/-- HMAC-SHA256 over byte sequences. -/
def hmacSha256Bytes (key msg : List Nat) : List Nat :=
  let k0 := if key.length > 64 then sha256Bytes key else key
  let kpad := k0 ++ List.replicate (64 - k0.length) 0
  let ipad := kpad.map (fun b => b ^^^ 54)
  let opad := kpad.map (fun b => b ^^^ 92)
  sha256Bytes (opad ++ sha256Bytes (ipad ++ msg))

/-- Hex HMAC-SHA256 of a string with a string key, as computed by
`createHmac("sha256", secret).update(data).digest("hex")`. -/
def hmacSha256Hex (key msg : String) : String :=
  bytesToHex (hmacSha256Bytes (strBytes key) (strBytes msg))

/-! The effectful part of the client.  A transport oracle (a function from the
index of the HTTP call to its outcome) stands for the network; the state also
carries the number of calls made so far, the trace of observable events (HTTP
calls and refresh-callback invocations), and the client's `options` — the
shared mutable `AuthConfig`, whose OAuth token fields `oauthRequest` updates
in place. -/

/-- Outcome of one raw `fetch`: parsed JSON on `result.ok`, otherwise the
HTTP status and the server's `errors` messages. -/
inductive TResult where
  | ok : Json → TResult
  | err : Nat → List String → TResult

/-- One HTTP call as issued by `coinbaseRequest`: method, path (appended to
the fixed `API_URL`), optional body (serialized as JSON by the transport),
and the full header list. -/
structure HttpCall where
  method : Method
  path : String
  body : Option (List (String × Json))
  headers : List (String × String)

/-- The fixed origin all paths are appended to. -/
def API_URL : String := "https://api.coinbase.com"

/-- ApiKeyOptions.auth. -/
structure ApiKeyAuth where
  apiKey : String
  apiSecret : String

/-- OAuthOptions.auth: the shared mutable token record.  The refresh callback
is user code; the model records only its presence and its invocations. -/
structure OAuthAuth where
  clientId : String
  clientSecret : String
  accessToken : Json
  refreshToken : Json
  refreshCallback : Bool

/-- CoinbaseOptions: the tagged union over the two auth strategies. -/
inductive ClientOptions where
  | apikey : ApiKeyAuth → ClientOptions
  | oauth : OAuthAuth → ClientOptions

/-- A page of records plus the pagination cursor received with it (the
back-reference to the dispatcher is the ambient state). -/
structure PaginatedResult where
  data : List Json
  pagination : Json

/-- What `Coinbase.request` resolves to: either a plain JSON value or a
`PaginatedResult` instance. -/
inductive ResultObj where
  | plain : Json → ResultObj
  | paginated : PaginatedResult → ResultObj

/-- Runtime property access on a dispatch result: on a plain JSON value this
is ordinary field access; on a `PaginatedResult` instance the `data` and
`pagination` fields are its constructor arguments (TypeScript `private` does
not exist at runtime), anything else is `undefined`. -/
def resultField (r : ResultObj) (name : String) : Json :=
  match r with
  | .plain j => getField j name
  | .paginated pr =>
    if name = "data" then .arr pr.data
    else if name = "pagination" then pr.pagination
    else .undefValue

/-- Observable events: HTTP calls through the transport, and invocations of
the OAuth refresh-notification callback (with the token result it receives). -/
inductive Event where
  | call : HttpCall → Event
  | refreshEvent : ResultObj → Event

/-- Thrown JavaScript errors: `RequestError(status, messages)` carries an HTTP
status (`e.status === 401` distinguishes it); a plain `Error(message)` does
not. -/
inductive JsError where
  | requestError : Nat → List String → JsError
  | jsError : String → JsError

/-- The client state threaded through every computation. -/
structure St where
  oracle : Nat → TResult
  k : Nat
  trace : List Event
  options : Option ClientOptions

/-- A stateful, fallible computation (the model of an `async` method of the
client): state in, `Except` result and state out.  State changes made before
a throw persist, as they do in JavaScript. -/
def M (α : Type) : Type := St → Except JsError α × St

/-- Coinbase.coinbaseRequest: perform exactly one HTTP call with the given
headers (after a fixed `Content-Type` header), consuming the next oracle
entry; non-ok statuses raise `RequestError`. -/
def coinbaseRequest (parameters : CoinbaseRequestArguments)
    (headers : List (String × String)) : M Json := fun s =>
  let call : HttpCall :=
    { method := parameters.method, path := parameters.path,
      body := parameters.args,
      headers := ("Content-Type", "application/json") :: headers }
  let s' : St := { s with k := s.k + 1, trace := s.trace ++ [Event.call call] }
  match s.oracle s.k with
  | .ok json => (.ok json, s')
  | .err status msgs => (.error (.requestError status msgs), s')

/-- The response-unwrapping tail of `Coinbase.request`: a truthy `data` field
is the payload; with a truthy `pagination` field and an array payload it is
wrapped in a new `PaginatedResult`; without a truthy `data` field the full
response object is returned unchanged. -/
def unwrapResponse (response : Json) : ResultObj :=
  let dataAsT := getField response "data"
  if truthy dataAsT then
    let pagination := getField response "pagination"
    if truthy pagination && isArrayB dataAsT then
      .paginated ⟨arrElems dataAsT, pagination⟩
    else .plain dataAsT
  else .plain response

/-- Coinbase.request with the transport step abstracted: resolve the
parameters, perform the call, unwrap the response.  Resolver errors are
thrown; transport errors propagate unchanged. -/
def requestWith (doCall : CoinbaseRequestArguments → M Json)
    (parameters : CoinbaseRequestArguments) : M ResultObj := fun s =>
  match resolveRequest parameters with
  | .error msg => (.error (.jsError msg), s)
  | .ok newParameters =>
    match doCall newParameters s with
    | (.ok response, s1) => (.ok (unwrapResponse response), s1)
    | (.error e, s1) => (.error e, s1)

/-- Coinbase.request with `auth = false`: dispatch straight through the
transport with no auth headers. -/
def requestNoAuth (parameters : CoinbaseRequestArguments) : M ResultObj :=
  requestWith (fun p => coinbaseRequest p []) parameters

/-- Coinbase.getOAuthAccessToken: the generated `POST /oauth/token` endpoint
method, dispatched without authentication. -/
def getOAuthAccessToken (args : List (String × Json)) : M ResultObj :=
  requestNoAuth ⟨.POST, "/oauth/token", some args⟩

/-- The OAuth variant of the shared `options`, when present. -/
def getOAuthCfg (s : St) : Option OAuthAuth :=
  match s.options with
  | some (.oauth cfg) => some cfg
  | _ => none

/-- Assignment of the two token fields of the shared OAuth auth record
(`oauth.refreshToken = ...; oauth.accessToken = ...`). -/
def setOAuthTokens (rt atok : Json) (s : St) : St :=
  match s.options with
  | some (.oauth cfg) =>
    { s with options := some (.oauth { cfg with refreshToken := rt, accessToken := atok }) }
  | _ => s

/-- Coinbase.oauthRequest.  The `oauth` parameter of the source aliases the
client's shared `options.auth`, so the model reads it from (and writes it
back to) the state.  A first attempt carries the current bearer token; a
caught `RequestError` with status 401 triggers one refresh-token call, the
in-place token update, the optional callback, and one retry with the new
bearer token; any other error — and any error of the retry — propagates. -/
def oauthRequest (parameters : CoinbaseRequestArguments) : M Json := fun s =>
  match getOAuthCfg s with
  | none => (.error (.jsError "oauthRequest without oauth options"), s)
  | some cfg =>
    match coinbaseRequest parameters
        [("Authorization", "Bearer " ++ jsonToString cfg.accessToken)] s with
    | (.ok result, s1) => (.ok result, s1)
    | (.error e, s1) =>
      match e with
      | .requestError 401 _ =>
        match getOAuthCfg s1 with
        | none => (.error (.jsError "oauthRequest without oauth options"), s1)
        | some cfg1 =>
          match getOAuthAccessToken
              [("grant_type", .str "refresh_token"),
               ("refresh_token", cfg1.refreshToken),
               ("client_id", .str cfg1.clientId),
               ("client_secret", .str cfg1.clientSecret)] s1 with
          | (.error e2, s2) => (.error e2, s2)
          | (.ok tokens, s2) =>
            let s3 := setOAuthTokens (resultField tokens "refresh_token")
                        (resultField tokens "access_token") s2
            let s4 := if cfg1.refreshCallback then
                        { s3 with trace := s3.trace ++ [Event.refreshEvent tokens] }
                      else s3
            match getOAuthCfg s4 with
            | none => (.error (.jsError "oauthRequest without oauth options"), s4)
            | some cfg2 =>
              coinbaseRequest parameters
                [("Authorization", "Bearer " ++ jsonToString cfg2.accessToken)] s4
      | _ => (.error e, s1)

/-- Coinbase.data.getTime: the generated unauthenticated `GET /v2/time`
endpoint method. -/
def getTime : M ResultObj := requestNoAuth ⟨.GET, "/v2/time", none⟩

/-- Coinbase.apiKeyRequest: fetch the server time, sign
`timestamp + method + path + serialized body` with HMAC-SHA256, and perform
the call with the three `CB-ACCESS-*` headers. -/
def apiKeyRequest (parameters : CoinbaseRequestArguments)
    (apiKeys : ApiKeyAuth) : M Json := fun s =>
  match getTime s with
  | (.error e, s1) => (.error e, s1)
  | (.ok timeResult, s1) =>
    let timestamp := jsonToString (resultField timeResult "epoch")
    let serializedBody :=
      match parameters.args with
      | some b => jsonStringify (.obj b)
      | none => ""
    let signatureData :=
      timestamp ++ methodString parameters.method ++ parameters.path ++ serializedBody
    let sha := hmacSha256Hex apiKeys.apiSecret signatureData
    coinbaseRequest parameters
      [("CB-ACCESS-KEY", apiKeys.apiKey),
       ("CB-ACCESS-SIGN", sha),
       ("CB-ACCESS-TIMESTAMP", timestamp)] s1

/-- Coinbase.authedRequest: fail without an AuthConfig, else dispatch on the
auth strategy tag.  (The source's `default: throw Unrecognized authStrategy`
branch is unreachable in the model, whose tag type has only the two cases.) -/
def authedRequest (parameters : CoinbaseRequestArguments) : M Json := fun s =>
  match s.options with
  | none => (.error (.jsError "Missing authentication"), s)
  | some (.apikey keys) => apiKeyRequest parameters keys s
  | some (.oauth _) => oauthRequest parameters s

/-- Coinbase.request, the dispatcher entry point (named `apiRequest` at the
call sites in methodInitializers.ts): resolve, dispatch with or without
authentication, unwrap. -/
def request (parameters : CoinbaseRequestArguments) (auth : Bool) : M ResultObj :=
  requestWith (fun p => if auth then authedRequest p else coinbaseRequest p []) parameters

/-- PaginatedResult.listRequest: one authenticated GET against a
server-supplied cursor URI; the response must expose a truthy `pagination`
(else throw), and a non-array `data` is coerced to a one-element array. -/
def listRequest (uri : String) : M (List Json × Json) := fun s =>
  match request ⟨.GET, uri, none⟩ true s with
  | (.error e, s1) => (.error e, s1)
  | (.ok listResponse, s1) =>
    let pagination := resultField listResponse "pagination"
    if truthy pagination then
      match resultField listResponse "data" with
      | .arr elems => (.ok (elems, pagination), s1)
      | d => (.ok ([d], pagination), s1)
    else
      (.error (.jsError "Unexpected result: no pagination object was returned"), s1)

/-- PaginatedResult.nextPage: nothing when the cursor's `next_uri` is falsy,
else fetch that URI and wrap the new page in a fresh instance. -/
def nextPage (pr : PaginatedResult) : M (Option PaginatedResult) := fun s =>
  let nextUri := getField pr.pagination "next_uri"
  if truthy nextUri then
    match listRequest (jsonToString nextUri) s with
    | (.ok dp, s1) => (.ok (some ⟨dp.1, dp.2⟩), s1)
    | (.error e, s1) => (.error e, s1)
  else
    (.ok none, s)

/-- PaginatedResult.previousPage, symmetric to `nextPage`. -/
def previousPage (pr : PaginatedResult) : M (Option PaginatedResult) := fun s =>
  let previousUri := getField pr.pagination "previous_uri"
  if truthy previousUri then
    match listRequest (jsonToString previousUri) s with
    | (.ok dp, s1) => (.ok (some ⟨dp.1, dp.2⟩), s1)
    | (.error e, s1) => (.error e, s1)
  else
    (.ok none, s)

/-- PaginatedResult.hasNext. -/
def hasNext (pr : PaginatedResult) : Bool := truthy (getField pr.pagination "next_uri")

/-- PaginatedResult.hasPrevious. -/
def hasPrevious (pr : PaginatedResult) : Bool :=
  truthy (getField pr.pagination "previous_uri")

/-- createMethod: an argument-less endpoint method closing over the client
(the ambient state), a verb, a path and an auth flag; invoking it dispatches
through the dispatcher entry point. -/
def createMethod (requestMethod : Method) (path : String) (auth : Bool) :
    Unit → M ResultObj :=
  fun _ => request ⟨requestMethod, path, none⟩ auth

/-- createMethodWithArgs. -/
def createMethodWithArgs (requestMethod : Method) (path : String) (auth : Bool) :
    List (String × Json) → M ResultObj :=
  fun args => request ⟨requestMethod, path, some args⟩ auth

/-- createMethodWithOptionalArgs. -/
def createMethodWithOptionalArgs (requestMethod : Method) (path : String)
    (auth : Bool) : Option (List (String × Json)) → M ResultObj :=
  fun args => request ⟨requestMethod, path, args⟩ auth

/-! Spec-side definitions, written from the specification's words, used to
state the (amended) claims about the query string and the unwrapping.  They
are compared against the code-side definitions above by the theorems. -/

/-- The `k=v` rendering of the residual pairs whose value is defined, in
insertion order (the pairs the spec says appear in the query string). -/
def definedPairs (args : List (String × Json)) : List String :=
  (args.filter (fun kv => !(isUndefValue kv.2))).map
    (fun kv => kv.1 ++ "=" ++ jsonToString kv.2)

/-- The spec's "joined by `&`". -/
def joinAmp : List String → String
  | [] => ""
  | [x] => x
  | x :: y :: rest => x ++ "&" ++ joinAmp (y :: rest)

/-- Whether the last residual entry (counting skipped ones) has an undefined
value. -/
def lastUndefValue (args : List (String × Json)) : Bool :=
  match args.getLast? with
  | some kv => isUndefValue kv.2
  | none => false

/-- The condition under which the code's query string keeps a trailing `&`:
some pair was emitted, and the last residual entry was skipped as undefined. -/
def trailingAmp (args : List (String × Json)) : Bool :=
  lastUndefValue args && args.any (fun kv => !(isUndefValue kv.2))

/-- Structural restatement of the query-string fold: each defined entry emits
`k=v`, followed by `&` whenever it is not the overall last entry. -/
def qAux : List (String × Json) → String
  | [] => ""
  | (k, v) :: rest =>
    (if isUndefValue v then ""
     else k ++ "=" ++ jsonToString v ++ (if rest.isEmpty then "" else "&")) ++ qAux rest

/-- Placeholder names of a list of path parts (so that `placeholderNames path`
is `partNames (splitSlash path)` by definition). -/
def partNames (parts : List String) : List String :=
  (parts.filter (fun p => startsWithColon p)).map (fun p => p.drop 1)

/-! Concrete fixtures used to witness the stateful theorems. -/

/-- An OAuth configuration with a registered refresh callback. -/
def oauthFixtureCfg : OAuthAuth := ⟨"cid", "csec", Json.str "oldA", Json.str "oldR", true⟩

/-- The token payload the fixture refresh endpoint returns. -/
def oauthFixtureTokens : Json :=
  Json.obj [("access_token", Json.str "newA"), ("refresh_token", Json.str "newR")]

/-- A transport that answers 401 to the first call, fresh tokens to the
refresh call, and 401 again to the retried call. -/
def oauthFixtureOracle : Nat → TResult := fun n =>
  if n = 0 then TResult.err 401 ["expired token"]
  else if n = 1 then TResult.ok oauthFixtureTokens
  else TResult.err 401 ["still invalid"]

/-- The client state for the OAuth refresh fixture. -/
def oauthFixtureSt : St := ⟨oauthFixtureOracle, 0, [], some (.oauth oauthFixtureCfg)⟩

/-- A server-time response whose epoch is 100. -/
def apiKeyFixtureTime : Json :=
  Json.obj [("data", Json.obj [("iso", Json.str "2015-07-23T00:00:00Z"),
    ("epoch", Json.num 100)])]

/-- The client state for the API-key signing fixture. -/
def apiKeyFixtureSt : St :=
  ⟨fun _ => TResult.ok apiKeyFixtureTime, 0, [], some (.apikey ⟨"k", "s"⟩)⟩

/-! Supporting lemmas about the resolver and the query-string builder. -/

theorem enumFrom_cons {α : Type} (j : Nat) (x : α) (xs : List α) :
    List.enumFrom j (x :: xs) = (j, x) :: List.enumFrom (j + 1) xs := rfl

theorem qAux_cons (k : String) (v : Json) (rest : List (String × Json)) :
    qAux ((k, v) :: rest) =
      (if isUndefValue v then ""
       else k ++ "=" ++ jsonToString v ++ (if rest.isEmpty then "" else "&")) ++ qAux rest := rfl

theorem foldl_queryStep (l : List (String × Json)) (j : Nat) (acc : String) (n : Nat)
    (hn : n = j + l.length) :
    (List.enumFrom j l).foldl (queryStep n) acc = acc ++ qAux l := by
  induction l generalizing j acc with
  | nil => simp [qAux, String.append_empty]
  | cons kv rest ih =>
    obtain ⟨k, v⟩ := kv
    rw [enumFrom_cons, List.foldl_cons,
      ih (j + 1) _ (by simp only [List.length_cons] at hn; omega)]
    rw [qAux_cons, ← String.append_assoc]
    congr 1
    by_cases hu : isUndefValue v
    · simp [queryStep, hu, String.append_empty]
    · have hu' : isUndefValue v = false := by simpa using hu
      rcases rest with _ | ⟨y, ys⟩
      · have hj : ¬(j < n - 1) := by simp only [List.length_cons, List.length_nil] at hn; omega
        simp [queryStep, hu', hj, String.append_empty, String.append_assoc]
      · have hj : j < n - 1 := by simp only [List.length_cons] at hn; omega
        simp [queryStep, hu', hj, String.append_assoc]

theorem buildQuery_eq_qAux (args : List (String × Json)) :
    buildQuery args = "?" ++ qAux args := by
  have h0 : args.enum = List.enumFrom 0 args := rfl
  rw [buildQuery, h0, foldl_queryStep args 0 "?" args.length (by simp)]

theorem lastUndef_cons_cons (kv x : String × Json) (rest : List (String × Json)) :
    lastUndefValue (kv :: x :: rest) = lastUndefValue (x :: rest) := by
  simp [lastUndefValue, List.getLast?]

theorem dp_nil_iff (l : List (String × Json)) :
    (definedPairs l = []) ↔ (l.any fun kv => !(isUndefValue kv.2)) = false := by
  simp [definedPairs, List.map_eq_nil_iff, List.filter_eq_nil_iff, List.any_eq_false]

theorem any_defined_of_dp_ne (l : List (String × Json))
    (h : definedPairs l ≠ []) : (l.any fun kv => !(isUndefValue kv.2)) = true := by
  cases hany : (l.any fun kv => !(isUndefValue kv.2)) with
  | false => exact absurd ((dp_nil_iff l).mpr hany) h
  | true => rfl

theorem all_undef_last (l : List (String × Json)) (hne : l ≠ [])
    (h : definedPairs l = []) : lastUndefValue l = true := by
  have hall : ∀ kv ∈ l, isUndefValue kv.2 = true := by
    simp only [definedPairs, List.map_eq_nil_iff, List.filter_eq_nil_iff] at h
    intro kv hkv
    simpa using h kv hkv
  rw [lastUndefValue, List.getLast?_eq_getLast_of_ne_nil hne]
  exact hall _ (List.getLast_mem hne)

theorem qAux_eq_joinAmp (l : List (String × Json)) :
    qAux l = joinAmp (definedPairs l) ++ (if trailingAmp l then "&" else "") := by
  induction l with
  | nil => simp [qAux, definedPairs, joinAmp, trailingAmp, lastUndefValue]
  | cons kv rest ih =>
    obtain ⟨k, v⟩ := kv
    by_cases hu : isUndefValue v
    · rcases rest with _ | ⟨y, ys⟩
      · simp [qAux, definedPairs, joinAmp, trailingAmp, lastUndefValue, hu, String.append_empty]
      · have hdp : definedPairs ((k, v) :: y :: ys) = definedPairs (y :: ys) := by
          simp [definedPairs, hu]
        have htr : trailingAmp ((k, v) :: y :: ys) = trailingAmp (y :: ys) := by
          simp [trailingAmp, lastUndef_cons_cons, List.any_cons, hu]
        rw [qAux_cons, if_pos hu, String.empty_append, ih, hdp, htr]
    · have hu' : isUndefValue v = false := by simpa using hu
      rcases rest with _ | ⟨y, ys⟩
      · simp [qAux, definedPairs, joinAmp, trailingAmp, lastUndefValue, hu', String.append_empty]
      · have hdp : definedPairs ((k, v) :: y :: ys) =
            (k ++ "=" ++ jsonToString v) :: definedPairs (y :: ys) := by
          simp [definedPairs, hu']
        have htr : trailingAmp ((k, v) :: y :: ys) = lastUndefValue (y :: ys) := by
          simp [trailingAmp, lastUndef_cons_cons, List.any_cons, hu']
        rw [qAux_cons, if_neg (by simp [hu']), ih, hdp]
        rcases hdpr : definedPairs (y :: ys) with _ | ⟨q, qs⟩
        · have hlast : lastUndefValue (y :: ys) = true := all_undef_last _ (by simp) hdpr
          have htr' : trailingAmp (y :: ys) = false := by
            simp only [trailingAmp, (dp_nil_iff (y :: ys)).mp hdpr, Bool.and_false]
          rw [htr', htr, hlast]
          simp [joinAmp, String.append_empty, String.append_assoc]
        · have hany : ((y :: ys).any fun kv => !(isUndefValue kv.2)) = true :=
            any_defined_of_dp_ne _ (by rw [hdpr]; simp)
          have htr2 : trailingAmp (y :: ys) = lastUndefValue (y :: ys) := by
            simp [trailingAmp, hany]
          rw [htr2, htr]
          have hj : joinAmp ((k ++ "=" ++ jsonToString v) :: q :: qs) =
              (k ++ "=" ++ jsonToString v) ++ "&" ++ joinAmp (q :: qs) := rfl
          rw [hj]
          simp [String.append_assoc]

theorem buildQuery_spec (args : List (String × Json)) :
    buildQuery args =
      "?" ++ joinAmp (definedPairs args) ++ (if trailingAmp args then "&" else "") := by
  rw [buildQuery_eq_qAux, qAux_eq_joinAmp, String.append_assoc]

theorem partNames_cons_ph (part : String) (rest : List String)
    (hs : startsWithColon part = true) :
    partNames (part :: rest) = part.drop 1 :: partNames rest := by
  simp [partNames, hs]

theorem partNames_cons_plain (part : String) (rest : List String)
    (hs : startsWithColon part = false) :
    partNames (part :: rest) = partNames rest := by
  simp [partNames, hs]

theorem substPathParts_cons_ph (part : String) (rest : List String)
    (args : List (String × Json)) (hs : startsWithColon part = true) :
    substPathParts (part :: rest) args =
      match args.lookup (part.drop 1) with
      | some v =>
        (match substPathParts rest (eraseKey (part.drop 1) args) with
         | .ok (parts, residual) => .ok (jsonToString v :: parts, residual)
         | .error e => .error e)
      | none => .error ("missing path argument: " ++ part.drop 1) := by
  simp [substPathParts, hs]

theorem substPathParts_cons_plain (part : String) (rest : List String)
    (args : List (String × Json)) (hs : startsWithColon part = false) :
    substPathParts (part :: rest) args =
      match substPathParts rest args with
      | .ok (parts, residual) => .ok (part :: parts, residual)
      | .error e => .error e := by
  simp [substPathParts, hs]

theorem lookup_eraseKey_self (k : String) (args : List (String × Json)) :
    (eraseKey k args).lookup k = none := by
  induction args with
  | nil => rfl
  | cons kv rest ih =>
    obtain ⟨k', v⟩ := kv
    by_cases h : k' = k
    · simpa [eraseKey, h] using ih
    · have hb : (k == k') = false := by simp [Ne.symm h]
      simp [eraseKey, h, List.lookup, hb, ih]

theorem lookup_eraseKey_ne (k m : String) (args : List (String × Json)) (h : m ≠ k) :
    (eraseKey k args).lookup m = args.lookup m := by
  induction args with
  | nil => rfl
  | cons kv rest ih =>
    obtain ⟨k', v⟩ := kv
    by_cases hk : k' = k
    · subst hk
      have hb : (m == k') = false := by simp [h]
      simp [eraseKey, List.lookup, hb, ih]
    · by_cases hm : m = k'
      · simp [eraseKey, hk, List.lookup, hm]
      · have hb : (m == k') = false := by simp [hm]
        simp [eraseKey, hk, List.lookup, hb, ih]

theorem substPathParts_isOk (parts : List String) (args : List (String × Json))
    (hnd : (partNames parts).Nodup) :
    (substPathParts parts args).isOk = true ↔
      ∀ n ∈ partNames parts, (args.lookup n).isSome = true := by
  induction parts generalizing args with
  | nil => simp [substPathParts, partNames, Except.isOk, Except.toBool]
  | cons part rest ih =>
    by_cases hs : startsWithColon part
    · rw [partNames_cons_ph part rest hs] at hnd ⊢
      rw [substPathParts_cons_ph part rest args hs]
      have hn1 : part.drop 1 ∉ partNames rest := (List.nodup_cons.mp hnd).1
      have hn2 : (partNames rest).Nodup := (List.nodup_cons.mp hnd).2
      have heq : ∀ m ∈ partNames rest,
          ((eraseKey (part.drop 1) args).lookup m) = args.lookup m := by
        intro m hm
        exact lookup_eraseKey_ne _ _ _ (fun hmn => hn1 (hmn ▸ hm))
      cases hlook : args.lookup (part.drop 1) with
      | none =>
        simp only [Except.isOk, Except.toBool]
        constructor
        · intro hok; exact absurd hok (by simp)
        · intro hall
          have := hall (part.drop 1) (List.mem_cons_self _ _)
          rw [hlook] at this
          simp at this
      | some v =>
        have hiff := ih (eraseKey (part.drop 1) args) hn2
        cases hrec : substPathParts rest (eraseKey (part.drop 1) args) with
        | ok p =>
          obtain ⟨ps, residual⟩ := p
          simp only [Except.isOk, Except.toBool]
          constructor
          · intro _
            intro n hn
            rcases List.mem_cons.mp hn with h1 | h2
            · subst h1; simp [hlook]
            · have := (hiff.mp (by simp [hrec, Except.isOk, Except.toBool])) n h2
              rwa [heq n h2] at this
          · intro _; trivial
        | error e =>
          simp only [Except.isOk, Except.toBool]
          constructor
          · intro hok; exact absurd hok (by simp)
          · intro hall
            have hok : (substPathParts rest (eraseKey (part.drop 1) args)).isOk = true := by
              apply hiff.mpr
              intro m hm
              rw [heq m hm]
              exact hall m (List.mem_cons_of_mem _ hm)
            rw [hrec] at hok
            exact absurd hok (by simp [Except.isOk, Except.toBool])
    · have hs' : startsWithColon part = false := by simpa using hs
      rw [partNames_cons_plain part rest hs'] at hnd ⊢
      rw [substPathParts_cons_plain part rest args hs']
      have hiff := ih args hnd
      cases hrec : substPathParts rest args with
      | ok p =>
        obtain ⟨ps, residual⟩ := p
        rw [hrec] at hiff
        simpa [Except.isOk, Except.toBool] using hiff
      | error e =>
        rw [hrec] at hiff
        simpa [Except.isOk, Except.toBool] using hiff

theorem find?_congr {α : Type} (l : List α) (p q : α → Bool)
    (h : ∀ x ∈ l, p x = q x) : l.find? p = l.find? q := by
  induction l with
  | nil => rfl
  | cons x xs ih =>
    have hx := h x (List.mem_cons_self _ _)
    cases hq : q x with
    | true =>
      rw [List.find?_cons_of_pos _ (hx ▸ hq), List.find?_cons_of_pos _ hq]
    | false =>
      rw [List.find?_cons_of_neg _ (by simp [hx, hq]), List.find?_cons_of_neg _ (by simp [hq])]
      exact ih (fun y hy => h y (List.mem_cons_of_mem _ hy))

theorem substPathParts_error_first (parts : List String) (args : List (String × Json))
    (n : String) (hnd : (partNames parts).Nodup)
    (hfind : (partNames parts).find? (fun m => (args.lookup m).isNone) = some n) :
    substPathParts parts args = .error ("missing path argument: " ++ n) := by
  induction parts generalizing args with
  | nil => simp [partNames] at hfind
  | cons part rest ih =>
    by_cases hs : startsWithColon part
    · rw [partNames_cons_ph part rest hs] at hnd hfind
      have hn1 : part.drop 1 ∉ partNames rest := (List.nodup_cons.mp hnd).1
      have hn2 : (partNames rest).Nodup := (List.nodup_cons.mp hnd).2
      rw [substPathParts_cons_ph part rest args hs]
      cases hd : (args.lookup (part.drop 1)).isNone with
      | true =>
        rw [@List.find?_cons_of_pos _ (fun m => (args.lookup m).isNone) (part.drop 1)
          (partNames rest) hd] at hfind
        have hn' : n = part.drop 1 := (Option.some_inj.mp hfind).symm
        rw [Option.isNone_iff_eq_none] at hd
        rw [hd, hn']
      | false =>
        rw [@List.find?_cons_of_neg _ (fun m => (args.lookup m).isNone) (part.drop 1)
          (partNames rest) (by simp [hd])] at hfind
        have hfind' : (partNames rest).find?
            (fun m => ((eraseKey (part.drop 1) args).lookup m).isNone) = some n := by
          rw [find?_congr _ _ (fun m => ((args.lookup m)).isNone)
            (fun m hm => by
              have hne : m ≠ part.drop 1 := fun hmn => hn1 (hmn ▸ hm)
              rw [lookup_eraseKey_ne _ _ _ hne])]
          exact hfind
        cases hlook : args.lookup (part.drop 1) with
        | none => rw [hlook] at hd; simp at hd
        | some v =>
          rw [ih (eraseKey (part.drop 1) args) hn2 hfind']
    · have hs' : startsWithColon part = false := by simpa using hs
      rw [partNames_cons_plain part rest hs'] at hnd hfind
      rw [substPathParts_cons_plain part rest args hs', ih args hnd hfind]

theorem substPathParts_residual (parts : List String) (args : List (String × Json))
    (parts' : List String) (residual : List (String × Json))
    (hok : substPathParts parts args = .ok (parts', residual)) (m : String) :
    residual.lookup m = if m ∈ partNames parts then none else args.lookup m := by
  induction parts generalizing args parts' residual with
  | nil =>
    simp only [substPathParts, Except.ok.injEq, Prod.mk.injEq] at hok
    rw [hok.2.symm]
    simp [partNames]
  | cons part rest ih =>
    by_cases hs : startsWithColon part
    · rw [partNames_cons_ph part rest hs]
      rw [substPathParts_cons_ph part rest args hs] at hok
      cases hlook : args.lookup (part.drop 1) with
      | none => rw [hlook] at hok; simp at hok
      | some v =>
        rw [hlook] at hok
        cases hrec : substPathParts rest (eraseKey (part.drop 1) args) with
        | error e => rw [hrec] at hok; simp at hok
        | ok p =>
          obtain ⟨ps, res⟩ := p
          rw [hrec] at hok
          simp only [Except.ok.injEq, Prod.mk.injEq] at hok
          have hres : residual = res := hok.2.symm
          subst hres
          have := ih (eraseKey (part.drop 1) args) ps residual hrec
          rw [this]
          by_cases hmem : m ∈ partNames rest
          · simp [hmem]
          · by_cases hmd : m = part.drop 1
            · subst hmd
              simp [hmem, lookup_eraseKey_self]
            · rw [lookup_eraseKey_ne _ _ _ hmd]
              simp [hmem, hmd]
    · have hs' : startsWithColon part = false := by simpa using hs
      rw [partNames_cons_plain part rest hs']
      rw [substPathParts_cons_plain part rest args hs'] at hok
      cases hrec : substPathParts rest args with
      | error e => rw [hrec] at hok; simp at hok
      | ok p =>
        obtain ⟨ps, res⟩ := p
        rw [hrec] at hok
        simp only [Except.ok.injEq, Prod.mk.injEq] at hok
        have hres : residual = res := hok.2.symm
        subst hres
        exact ih args ps residual hrec

theorem resolveRequest_isOk_eq (parameters : CoinbaseRequestArguments)
    (args0 : List (String × Json)) (h : parameters.args = some args0) :
    (resolveRequest parameters).isOk =
      (substPathParts (splitSlash parameters.path) args0).isOk := by
  simp only [resolveRequest, h]
  cases hrec : substPathParts (splitSlash parameters.path) args0 with
  | error e => simp [Except.isOk, Except.toBool]
  | ok p =>
    obtain ⟨a, b⟩ := p
    by_cases h1 : b.length > 0
    · by_cases h2 : parameters.method = .GET
      · simp [h1, h2, Except.isOk, Except.toBool]
      · by_cases h3 : parameters.method = .POST
        · simp [h1, h2, h3, Except.isOk, Except.toBool]
        · simp [h1, h2, h3, Except.isOk, Except.toBool]
    · simp [h1, Except.isOk, Except.toBool]

theorem resolveRequest_error_eq (parameters : CoinbaseRequestArguments)
    (args0 : List (String × Json)) (e : String) (h : parameters.args = some args0)
    (he : substPathParts (splitSlash parameters.path) args0 = .error e) :
    resolveRequest parameters = .error e := by
  simp only [resolveRequest, h, he]

theorem resolveRequest_GET (parameters : CoinbaseRequestArguments)
    (args0 : List (String × Json)) (parts : List String)
    (residual : List (String × Json))
    (h : parameters.args = some args0) (hm : parameters.method = .GET)
    (hs : substPathParts (splitSlash parameters.path) args0 = .ok (parts, residual))
    (hr : residual ≠ []) :
    resolveRequest parameters =
      .ok ⟨.GET, String.intercalate "/" parts ++ "?" ++ joinAmp (definedPairs residual) ++
            (if trailingAmp residual then "&" else ""), none⟩ := by
  have hlen : residual.length > 0 := List.length_pos.mpr hr
  simp only [resolveRequest, h, hs, hm]
  rw [if_pos hlen]
  simp [buildQuery_spec, String.append_assoc]

/-! The claims. -/

/-- Claim C2 (amended): when the argument mapping is present and the path's
placeholder names are pairwise distinct, resolution succeeds if and only if
every placeholder name is a key of the mapping; on failure the error is
`missing path argument: n` for the first missing name in path order; and on a
successful substitution pass the residual mapping maps every placeholder name
to nothing while agreeing with the original mapping on all other keys.  (The
claim as stated also demanded failure when the mapping is absent, and success
whenever all names are present even if repeated — both refuted by
`C2_counterexample`.) -/
theorem C2_resolver_contract (parameters : CoinbaseRequestArguments)
    (args0 : List (String × Json)) (h : parameters.args = some args0)
    (hnd : (placeholderNames parameters.path).Nodup) :
    ((resolveRequest parameters).isOk = true ↔
      ∀ n ∈ placeholderNames parameters.path, (args0.lookup n).isSome = true)
  ∧ (∀ n, (placeholderNames parameters.path).find?
        (fun m => (args0.lookup m).isNone) = some n →
      resolveRequest parameters = .error ("missing path argument: " ++ n))
  ∧ (∀ parts residual,
      substPathParts (splitSlash parameters.path) args0 = .ok (parts, residual) →
      ∀ m, residual.lookup m =
        if m ∈ placeholderNames parameters.path then none else args0.lookup m) := by
  refine ⟨?_, ?_, ?_⟩
  · rw [resolveRequest_isOk_eq parameters args0 h]
    exact substPathParts_isOk _ _ hnd
  · intro n hfind
    exact resolveRequest_error_eq parameters args0 _ h
      (substPathParts_error_first _ _ _ hnd hfind)
  · intro parts residual hok m
    exact substPathParts_residual _ _ _ _ hok m

/-- Claim C2, counterexample: with the argument mapping absent entirely, a
path containing a placeholder resolves without any `MissingPathArgument`
error (the substitution block is guarded by `if (args)`); and a duplicated
placeholder name fails even though the name is present as a key, because the
key is deleted after the first substitution. -/
theorem C2_counterexample :
    resolveRequest ⟨.GET, "/v2/accounts/:account_id", none⟩ =
      .ok ⟨.GET, "/v2/accounts/:account_id", none⟩
  ∧ resolveRequest ⟨.GET, "/v2/prices/:a/:a", some [("a", Json.str "1")]⟩ =
      .error "missing path argument: a" := ⟨rfl, rfl⟩

/-- Claim C2, witness: the amended contract applied to
`GET /v2/accounts/:account_id/sells/:sell_id` with both placeholders and one
extra query argument supplied. -/
theorem C2_resolver_contract_witness :
    ((⟨.GET, "/v2/accounts/:account_id/sells/:sell_id",
        some [("account_id", Json.str "A"), ("sell_id", Json.str "S"),
              ("limit", Json.num 5)]⟩ : CoinbaseRequestArguments).args =
      some [("account_id", Json.str "A"), ("sell_id", Json.str "S"), ("limit", Json.num 5)])
  ∧ (placeholderNames "/v2/accounts/:account_id/sells/:sell_id").Nodup
  ∧ ((resolveRequest ⟨.GET, "/v2/accounts/:account_id/sells/:sell_id",
        some [("account_id", Json.str "A"), ("sell_id", Json.str "S"),
              ("limit", Json.num 5)]⟩).isOk = true ↔
      ∀ n ∈ placeholderNames "/v2/accounts/:account_id/sells/:sell_id",
        (([("account_id", Json.str "A"), ("sell_id", Json.str "S"),
           ("limit", Json.num 5)] : List (String × Json)).lookup n).isSome = true) :=
  ⟨rfl, by decide, (C2_resolver_contract _ _ rfl (by decide)).1⟩

/-- Claim C3: the failing PUT input.  The resolver drops the residual
arguments of a PUT request (the body-assignment branch exists only for POST),
so `updateAccount`'s `name` argument is silently discarded, while the same
input under POST keeps the residual mapping as the body. -/
theorem C3_put_residual_dropped :
    resolveRequest ⟨.PUT, "/v2/accounts/:account_id",
      some [("account_id", Json.str "A123"), ("name", Json.str "Newname")]⟩ =
      .ok ⟨.PUT, "/v2/accounts/A123", none⟩
  ∧ resolveRequest ⟨.POST, "/v2/accounts/:account_id",
      some [("account_id", Json.str "A123"), ("name", Json.str "Newname")]⟩ =
      .ok ⟨.POST, "/v2/accounts/A123", some [("name", Json.str "Newname")]⟩ := ⟨rfl, rfl⟩

/-- Claim C6 (amended): a GET request with a non-empty residual mapping
resolves to the substituted path followed by `?`, then the `k=v` pairs of the
defined-valued residual entries in insertion order joined by `&`, except that
a trailing `&` remains whenever some pair was emitted and the last residual
entry had an undefined value (the code appends `&` to every emitted pair
whose index is below the last index counting skipped entries).  Keys with
undefined values are omitted. -/
theorem C6_get_query_string (parameters : CoinbaseRequestArguments)
    (args0 : List (String × Json)) (parts : List String)
    (residual : List (String × Json))
    (h : parameters.args = some args0) (hm : parameters.method = .GET)
    (hs : substPathParts (splitSlash parameters.path) args0 = .ok (parts, residual))
    (hr : residual ≠ []) :
    resolveRequest parameters =
      .ok ⟨.GET, String.intercalate "/" parts ++ "?" ++ joinAmp (definedPairs residual) ++
            (if trailingAmp residual then "&" else ""), none⟩ := by
  have hlen : residual.length > 0 := List.length_pos.mpr hr
  simp only [resolveRequest, h, hs, hm]
  rw [if_pos hlen]
  simp [buildQuery_spec, String.append_assoc]

/-- Claim C6, counterexample: with residual `limit=5` followed by an
undefined-valued `starting_after`, the code produces `?limit=5&` with a
trailing ampersand, not the `?limit=5` the claim's joined-by-`&` rendering
demands. -/
theorem C6_counterexample :
    resolveRequest ⟨.GET, "/v2/accounts",
      some [("limit", Json.num 5), ("starting_after", Json.undefValue)]⟩ =
      .ok ⟨.GET, "/v2/accounts?limit=5&", none⟩
  ∧ "/v2/accounts?limit=5&" ≠ "/v2/accounts?limit=5" := ⟨rfl, by decide⟩

/-- Claim C6, witness: the amended query-string law applied to
`GET /v2/accounts` with two defined residual arguments. -/
theorem C6_get_query_string_witness :
    ((⟨.GET, "/v2/accounts", some [("limit", Json.num 25), ("order", Json.str "asc")]⟩ :
        CoinbaseRequestArguments).args =
      some [("limit", Json.num 25), ("order", Json.str "asc")])
  ∧ substPathParts (splitSlash "/v2/accounts")
      [("limit", Json.num 25), ("order", Json.str "asc")] =
      .ok (["", "v2", "accounts"], [("limit", Json.num 25), ("order", Json.str "asc")])
  ∧ resolveRequest ⟨.GET, "/v2/accounts",
      some [("limit", Json.num 25), ("order", Json.str "asc")]⟩ =
      .ok ⟨.GET, String.intercalate "/" ["", "v2", "accounts"] ++ "?" ++
            joinAmp (definedPairs [("limit", Json.num 25), ("order", Json.str "asc")]) ++
            (if trailingAmp [("limit", Json.num 25), ("order", Json.str "asc")] then "&" else ""),
          none⟩ :=
  ⟨rfl, rfl, C6_get_query_string _ _ _ _ rfl rfl rfl (by simp)⟩

/-- Claim C9: every endpoint method produced by the three factories —
`createMethod`, `createMethodWithArgs`, `createMethodWithOptionalArgs` —
dispatches its request spec through the dispatcher entry point `request`
(called `apiRequest` at the factory call sites), hence runs the full
resolve/authenticate/transport/unwrap pipeline. -/
theorem C9_factories_dispatch (m : Method) (p : String) (a : Bool)
    (args : List (String × Json)) (opt : Option (List (String × Json))) (s : St) :
    createMethod m p a () s = request ⟨m, p, none⟩ a s
  ∧ createMethodWithArgs m p a args s = request ⟨m, p, some args⟩ a s
  ∧ createMethodWithOptionalArgs m p a opt s = request ⟨m, p, opt⟩ a s :=
  ⟨rfl, rfl, rfl⟩

/-- Claim C7: each direction on its own — whenever the cursor's `next_uri`
is null, `hasNext()` is false and `nextPage()` resolves to nothing with the
state — transport counter and trace included — completely unchanged (no
network call), whatever `previous_uri` holds; and symmetrically for
`previous_uri` and `previousPage()`, whatever `next_uri` holds. -/
theorem C7_null_cursor (pr : PaginatedResult) (s : St) :
    (getField pr.pagination "next_uri" = Json.null →
      hasNext pr = false ∧ nextPage pr s = (Except.ok none, s))
  ∧ (getField pr.pagination "previous_uri" = Json.null →
      hasPrevious pr = false ∧ previousPage pr s = (Except.ok none, s)) := by
  constructor
  · intro hn
    constructor
    · simp [hasNext, hn, truthy]
    · simp [nextPage, hn, truthy]
  · intro hp
    constructor
    · simp [hasPrevious, hp, truthy]
    · simp [previousPage, hp, truthy]

/-- Claim C7, witness: one-sided cursors, run against a transport that would
fail if it were ever consulted — a last-page cursor (`next_uri` null,
`previous_uri` live) for the forward direction, and a first-page cursor
(`previous_uri` null, `next_uri` live) for the backward direction. -/
theorem C7_null_cursor_witness :
    ((getField (Json.obj [("next_uri", Json.null),
          ("previous_uri", Json.str "/v2/accounts?ending_before=Y")]) "next_uri" =
        Json.null)
     ∧ (hasNext ⟨[], Json.obj [("next_uri", Json.null),
            ("previous_uri", Json.str "/v2/accounts?ending_before=Y")]⟩ = false
        ∧ nextPage ⟨[], Json.obj [("next_uri", Json.null),
              ("previous_uri", Json.str "/v2/accounts?ending_before=Y")]⟩
            (⟨fun _ => TResult.err 500 [], 0, [], none⟩ : St) =
          (Except.ok none, (⟨fun _ => TResult.err 500 [], 0, [], none⟩ : St))))
  ∧ ((getField (Json.obj [("next_uri", Json.str "/v2/accounts?starting_after=X"),
          ("previous_uri", Json.null)]) "previous_uri" =
        Json.null)
     ∧ (hasPrevious ⟨[], Json.obj [("next_uri", Json.str "/v2/accounts?starting_after=X"),
            ("previous_uri", Json.null)]⟩ = false
        ∧ previousPage ⟨[], Json.obj [("next_uri", Json.str "/v2/accounts?starting_after=X"),
              ("previous_uri", Json.null)]⟩
            (⟨fun _ => TResult.err 500 [], 0, [], none⟩ : St) =
          (Except.ok none, (⟨fun _ => TResult.err 500 [], 0, [], none⟩ : St)))) :=
  ⟨⟨rfl, (C7_null_cursor ⟨[], Json.obj [("next_uri", Json.null),
      ("previous_uri", Json.str "/v2/accounts?ending_before=Y")]⟩
      (⟨fun _ => TResult.err 500 [], 0, [], none⟩ : St)).1 rfl⟩,
   ⟨rfl, (C7_null_cursor ⟨[], Json.obj [("next_uri", Json.str "/v2/accounts?starting_after=X"),
      ("previous_uri", Json.null)]⟩
      (⟨fun _ => TResult.err 500 [], 0, [], none⟩ : St)).2 rfl⟩⟩

/-- Claim C10 (implicit): `listRequest` dispatches with the auth flag left
at its default `true`, so fetching either adjacent page on a client whose
options are absent fails with the `Missing authentication` error before any
transport call is made (state unchanged), regardless of the endpoint the
page came from. -/
theorem C10_pagination_requires_auth (pr : PaginatedResult) (s : St)
    (hopts : s.options = none) :
    (∀ nuri : String, getField pr.pagination "next_uri" = Json.str nuri → nuri ≠ "" →
      nextPage pr s = (.error (.jsError "Missing authentication"), s))
  ∧ (∀ puri : String, getField pr.pagination "previous_uri" = Json.str puri → puri ≠ "" →
      previousPage pr s = (.error (.jsError "Missing authentication"), s)) := by
  constructor
  · intro nuri hn hn'
    simp [nextPage, hn, truthy, hn', jsonToString, listRequest, request, requestWith,
      resolveRequest, authedRequest, hopts]
  · intro puri hp hp'
    simp [previousPage, hp, truthy, hp', jsonToString, listRequest, request, requestWith,
      resolveRequest, authedRequest, hopts]

/-- Claim C10, witness: one-sided paginators on a client constructed without
an AuthConfig — `nextPage` on a first-page cursor (`previous_uri` null) and
`previousPage` on a last-page cursor (`next_uri` null) both fail with the
missing-authentication error and leave the state untouched. -/
theorem C10_pagination_requires_auth_witness :
    ((⟨fun _ => TResult.ok Json.null, 0, [], none⟩ : St).options = none)
  ∧ nextPage ⟨[], Json.obj [("next_uri", Json.str "/v2/accounts?starting_after=X"),
        ("previous_uri", Json.null)]⟩
      (⟨fun _ => TResult.ok Json.null, 0, [], none⟩ : St) =
      (.error (.jsError "Missing authentication"),
        (⟨fun _ => TResult.ok Json.null, 0, [], none⟩ : St))
  ∧ previousPage ⟨[], Json.obj [("next_uri", Json.null),
        ("previous_uri", Json.str "/v2/accounts?ending_before=Y")]⟩
      (⟨fun _ => TResult.ok Json.null, 0, [], none⟩ : St) =
      (.error (.jsError "Missing authentication"),
        (⟨fun _ => TResult.ok Json.null, 0, [], none⟩ : St)) :=
  ⟨rfl,
    (C10_pagination_requires_auth
      ⟨[], Json.obj [("next_uri", Json.str "/v2/accounts?starting_after=X"),
        ("previous_uri", Json.null)]⟩
      (⟨fun _ => TResult.ok Json.null, 0, [], none⟩ : St) rfl).1
      "/v2/accounts?starting_after=X" rfl (by decide),
    (C10_pagination_requires_auth
      ⟨[], Json.obj [("next_uri", Json.null),
        ("previous_uri", Json.str "/v2/accounts?ending_before=Y")]⟩
      (⟨fun _ => TResult.ok Json.null, 0, [], none⟩ : St) rfl).2
      "/v2/accounts?ending_before=Y" rfl (by decide)⟩

/-- Claim C5 (amended): dispatching a resolvable spec whose transport call
succeeds with response `r` yields: a `PaginatedResult` wrapping the data
elements and the cursor when `r` has a truthy `data` field, a truthy
`pagination` field and array data; the bare `data` payload (never coerced to
a one-element sequence) when `r` has a truthy `data` field otherwise; and the
full response object unchanged when `data` is missing or falsy.  Exactly one
transport call is recorded.  (The claim as stated keyed these cases on the
mere presence of the fields; `C5_counterexample` shows a present-but-falsy
`data` field returns the full response.) -/
theorem C5_dispatcher_unwrap (parameters : CoinbaseRequestArguments) (s : St) (r : Json)
    (hargs : parameters.args = none)
    (horacle : s.oracle s.k = TResult.ok r) :
    request parameters false s =
      (Except.ok (
        if truthy (getField r "data") then
          (if truthy (getField r "pagination") && isArrayB (getField r "data") then
            ResultObj.paginated ⟨arrElems (getField r "data"), getField r "pagination"⟩
          else ResultObj.plain (getField r "data"))
        else ResultObj.plain r),
       { s with
          k := s.k + 1,
          trace := s.trace ++ [Event.call ⟨parameters.method, parameters.path, none,
            [("Content-Type", "application/json")]⟩] }) := by
  simp only [request, requestWith, resolveRequest, hargs, coinbaseRequest, horacle,
    unwrapResponse, Bool.false_eq_true, if_false]

/-- Claim C5, counterexample: a response carrying `data: 0` — a present
`data` field — is returned whole by the dispatcher (JS truthiness guards the
unwrapping), not as the bare payload `0` the claim requires. -/
theorem C5_counterexample :
    request ⟨.GET, "/v2/x", none⟩ false
      (⟨fun _ => TResult.ok (Json.obj [("data", Json.num 0)]), 0, [], none⟩ : St) =
      (Except.ok (ResultObj.plain (Json.obj [("data", Json.num 0)])),
       ⟨fun _ => TResult.ok (Json.obj [("data", Json.num 0)]), 1,
        [Event.call ⟨.GET, "/v2/x", none, [("Content-Type", "application/json")]⟩], none⟩)
  ∧ Json.obj [("data", Json.num 0)] ≠ Json.num 0 :=
  ⟨rfl, fun h => Json.noConfusion h⟩

/-- Claim C5, witness: the amended unwrapping law applied to a list-shaped
response with array data and a pagination cursor. -/
theorem C5_dispatcher_unwrap_witness :
    ((⟨.GET, "/v2/currencies", none⟩ : CoinbaseRequestArguments).args = none)
  ∧ ((⟨fun _ => TResult.ok (Json.obj [("data", Json.arr [Json.str "BTC"]),
        ("pagination", Json.obj [("next_uri", Json.null)])]), 0, [], none⟩ : St).oracle 0 =
      TResult.ok (Json.obj [("data", Json.arr [Json.str "BTC"]),
        ("pagination", Json.obj [("next_uri", Json.null)])]))
  ∧ request ⟨.GET, "/v2/currencies", none⟩ false
      (⟨fun _ => TResult.ok (Json.obj [("data", Json.arr [Json.str "BTC"]),
        ("pagination", Json.obj [("next_uri", Json.null)])]), 0, [], none⟩ : St) =
      (Except.ok (
        if truthy (getField (Json.obj [("data", Json.arr [Json.str "BTC"]),
            ("pagination", Json.obj [("next_uri", Json.null)])]) "data") then
          (if truthy (getField (Json.obj [("data", Json.arr [Json.str "BTC"]),
              ("pagination", Json.obj [("next_uri", Json.null)])]) "pagination") &&
              isArrayB (getField (Json.obj [("data", Json.arr [Json.str "BTC"]),
              ("pagination", Json.obj [("next_uri", Json.null)])]) "data") then
            ResultObj.paginated ⟨arrElems (getField (Json.obj [("data", Json.arr [Json.str "BTC"]),
              ("pagination", Json.obj [("next_uri", Json.null)])]) "data"),
              getField (Json.obj [("data", Json.arr [Json.str "BTC"]),
              ("pagination", Json.obj [("next_uri", Json.null)])]) "pagination"⟩
          else ResultObj.plain (getField (Json.obj [("data", Json.arr [Json.str "BTC"]),
              ("pagination", Json.obj [("next_uri", Json.null)])]) "data"))
        else ResultObj.plain (Json.obj [("data", Json.arr [Json.str "BTC"]),
            ("pagination", Json.obj [("next_uri", Json.null)])])),
       { (⟨fun _ => TResult.ok (Json.obj [("data", Json.arr [Json.str "BTC"]),
            ("pagination", Json.obj [("next_uri", Json.null)])]), 0, [], none⟩ : St) with
          k := 0 + 1,
          trace := [] ++ [Event.call ⟨.GET, "/v2/currencies", none,
            [("Content-Type", "application/json")]⟩] }) :=
  ⟨rfl, rfl, C5_dispatcher_unwrap ⟨.GET, "/v2/currencies", none⟩ _ _ rfl rfl⟩

/-- Claim C4 (amended): on a cursor with truthy `next_uri`, `nextPage`
issues exactly one authenticated GET against that URI (shown under an OAuth
config whose token is accepted); if the dispatcher's unwrapped result exposes
a truthy `pagination` property the new page is the data coerced to an array
(a singleton when not an array) wrapped with that cursor in a fresh
`PaginatedResult`, otherwise the `MissingPagination` error is thrown — in
particular a response with non-array data alongside a pagination envelope is
unwrapped to the bare payload and fails rather than being coerced
(`C4_counterexample`).  Symmetric for `previousPage`, and each direction
depends only on its own cursor URI, so one-sided first- and last-page
cursors are covered.  The original `PaginatedResult` value is unchanged (the model
is functional). -/
theorem C4_cursor_fetch (pr : PaginatedResult) (s : St) (cfg : OAuthAuth) (r : Json)
    (hopts : s.options = some (.oauth cfg))
    (horacle : s.oracle s.k = TResult.ok r) :
    (∀ uri : String, getField pr.pagination "next_uri" = Json.str uri → uri ≠ "" →
      nextPage pr s =
        ((if truthy (resultField (unwrapResponse r) "pagination") then
            Except.ok (some ⟨(match resultField (unwrapResponse r) "data" with
                              | Json.arr elems => elems
                              | d => [d]),
                             resultField (unwrapResponse r) "pagination"⟩)
          else Except.error (JsError.jsError
            "Unexpected result: no pagination object was returned")),
         { s with
            k := s.k + 1,
            trace := s.trace ++ [Event.call ⟨.GET, uri, none,
              [("Content-Type", "application/json"),
               ("Authorization", "Bearer " ++ jsonToString cfg.accessToken)]⟩] }))
  ∧ (∀ puri : String, getField pr.pagination "previous_uri" = Json.str puri → puri ≠ "" →
      previousPage pr s =
        ((if truthy (resultField (unwrapResponse r) "pagination") then
            Except.ok (some ⟨(match resultField (unwrapResponse r) "data" with
                              | Json.arr elems => elems
                              | d => [d]),
                             resultField (unwrapResponse r) "pagination"⟩)
          else Except.error (JsError.jsError
            "Unexpected result: no pagination object was returned")),
         { s with
            k := s.k + 1,
            trace := s.trace ++ [Event.call ⟨.GET, puri, none,
              [("Content-Type", "application/json"),
               ("Authorization", "Bearer " ++ jsonToString cfg.accessToken)]⟩] })) := by
  constructor
  · intro uri hn hu
    have htu : truthy (Json.str uri) = true := by simp [truthy, hu]
    have hjs : jsonToString (Json.str uri) = uri := rfl
    simp only [nextPage, hn, htu, if_true, hjs, listRequest, request, requestWith,
      resolveRequest, authedRequest, hopts, oauthRequest, getOAuthCfg, coinbaseRequest,
      horacle]
    rcases Bool.eq_false_or_eq_true (truthy (resultField (unwrapResponse r) "pagination"))
      with htr | htr
    · simp only [htr, if_true]
      cases resultField (unwrapResponse r) "data" <;> rfl
    · simp [htr]
  · intro puri hp hpu
    have htu : truthy (Json.str puri) = true := by simp [truthy, hpu]
    have hjs : jsonToString (Json.str puri) = puri := rfl
    simp only [previousPage, hp, htu, if_true, hjs, listRequest, request, requestWith,
      resolveRequest, authedRequest, hopts, oauthRequest, getOAuthCfg, coinbaseRequest,
      horacle]
    rcases Bool.eq_false_or_eq_true (truthy (resultField (unwrapResponse r) "pagination"))
      with htr | htr
    · simp only [htr, if_true]
      cases resultField (unwrapResponse r) "data" <;> rfl
    · simp [htr]

/-- Claim C4, counterexample: the server answers the cursor GET with a
non-array `data` object plus a `pagination` envelope; the dispatcher unwraps
it to the bare object, `listRequest` then finds no pagination property and
throws `MissingPagination` — the claim instead demanded a singleton-coerced
`PaginatedResult`. -/
theorem C4_counterexample :
    nextPage ⟨[], Json.obj [("next_uri", Json.str "/v2/accounts?starting_after=X"),
        ("previous_uri", Json.null)]⟩
      (⟨fun _ => TResult.ok (Json.obj [("data", Json.obj [("id", Json.str "x")]),
          ("pagination", Json.obj [("next_uri", Json.null)])]), 0, [],
        some (.oauth ⟨"cid", "csec", Json.str "tok", Json.str "rtok", false⟩)⟩ : St) =
      (Except.error (JsError.jsError "Unexpected result: no pagination object was returned"),
       ⟨fun _ => TResult.ok (Json.obj [("data", Json.obj [("id", Json.str "x")]),
          ("pagination", Json.obj [("next_uri", Json.null)])]), 1,
        [Event.call ⟨.GET, "/v2/accounts?starting_after=X", none,
          [("Content-Type", "application/json"), ("Authorization", "Bearer tok")]⟩],
        some (.oauth ⟨"cid", "csec", Json.str "tok", Json.str "rtok", false⟩)⟩) := rfl

/-- Claim C4, witness: the amended law's forward direction applied to a
first-page cursor (`previous_uri` null, live `next_uri`) whose GET is
answered with array data and a pagination envelope, producing a fresh
`PaginatedResult` after exactly one authenticated call. -/
theorem C4_cursor_fetch_witness :
    (getField (Json.obj [("next_uri", Json.str "/v2/accounts?starting_after=X"),
        ("previous_uri", Json.null)]) "next_uri" =
      Json.str "/v2/accounts?starting_after=X")
  ∧ ((⟨fun _ => TResult.ok (Json.obj [("data", Json.arr [Json.obj [("id", Json.str "a")]]),
        ("pagination", Json.obj [("next_uri", Json.null)])]), 0, [],
      some (.oauth ⟨"cid", "csec", Json.str "tok", Json.str "rtok", false⟩)⟩ : St).oracle 0 =
      TResult.ok (Json.obj [("data", Json.arr [Json.obj [("id", Json.str "a")]]),
        ("pagination", Json.obj [("next_uri", Json.null)])]))
  ∧ nextPage ⟨[], Json.obj [("next_uri", Json.str "/v2/accounts?starting_after=X"),
        ("previous_uri", Json.null)]⟩
      (⟨fun _ => TResult.ok (Json.obj [("data", Json.arr [Json.obj [("id", Json.str "a")]]),
          ("pagination", Json.obj [("next_uri", Json.null)])]), 0, [],
        some (.oauth ⟨"cid", "csec", Json.str "tok", Json.str "rtok", false⟩)⟩ : St) =
      (Except.ok (some ⟨[Json.obj [("id", Json.str "a")]],
          Json.obj [("next_uri", Json.null)]⟩),
       ⟨fun _ => TResult.ok (Json.obj [("data", Json.arr [Json.obj [("id", Json.str "a")]]),
          ("pagination", Json.obj [("next_uri", Json.null)])]), 1,
        [Event.call ⟨.GET, "/v2/accounts?starting_after=X", none,
          [("Content-Type", "application/json"), ("Authorization", "Bearer tok")]⟩],
        some (.oauth ⟨"cid", "csec", Json.str "tok", Json.str "rtok", false⟩)⟩) := by
  refine ⟨rfl, rfl, ?_⟩
  have h := (C4_cursor_fetch
    ⟨[], Json.obj [("next_uri", Json.str "/v2/accounts?starting_after=X"),
        ("previous_uri", Json.null)]⟩
    (⟨fun _ => TResult.ok (Json.obj [("data", Json.arr [Json.obj [("id", Json.str "a")]]),
        ("pagination", Json.obj [("next_uri", Json.null)])]), 0, [],
      some (.oauth ⟨"cid", "csec", Json.str "tok", Json.str "rtok", false⟩)⟩ : St)
    ⟨"cid", "csec", Json.str "tok", Json.str "rtok", false⟩
    (Json.obj [("data", Json.arr [Json.obj [("id", Json.str "a")]]),
      ("pagination", Json.obj [("next_uri", Json.null)])])
    rfl rfl).1 "/v2/accounts?starting_after=X" rfl (by decide)
  exact h

/-- Claim C1: for every OAuth request whose first transport attempt fails
with status 401 and whose refresh transport call succeeds with a token
payload (not enveloped under `data`), the client records exactly three
transport calls — the original call with the old bearer token; exactly one
`POST /oauth/token` refresh call whose body is
`grant_type=refresh_token` with the current refresh token, client id and
client secret; and exactly one retry of the original call with the new
bearer token — with the refresh-notification callback awaited between the
refresh and the retry exactly when one is registered.  Both token fields of
the shared auth config are replaced.  The outcome of the single retry is
propagated as is: a second 401 surfaces as `TransportError(401)` with no
further refresh (the trace ends after the third call). -/
theorem C1_oauth_refresh (parameters : CoinbaseRequestArguments) (s : St)
    (cfg : OAuthAuth) (msgs : List String) (tokensJson : Json)
    (hopts : s.options = some (.oauth cfg))
    (h0 : s.oracle s.k = TResult.err 401 msgs)
    (h1 : s.oracle (s.k + 1) = TResult.ok tokensJson)
    (hplain : truthy (getField tokensJson "data") = false) :
    oauthRequest parameters s =
      ((match s.oracle (s.k + 2) with
        | TResult.ok j => Except.ok j
        | TResult.err status m => Except.error (JsError.requestError status m)),
       { s with
          k := s.k + 1 + 1 + 1,
          trace := s.trace ++
            [Event.call ⟨parameters.method, parameters.path, parameters.args,
               [("Content-Type", "application/json"),
                ("Authorization", "Bearer " ++ jsonToString cfg.accessToken)]⟩,
             Event.call ⟨.POST, "/oauth/token",
               some [("grant_type", Json.str "refresh_token"),
                     ("refresh_token", cfg.refreshToken),
                     ("client_id", Json.str cfg.clientId),
                     ("client_secret", Json.str cfg.clientSecret)],
               [("Content-Type", "application/json")]⟩] ++
            (if cfg.refreshCallback then
              [Event.refreshEvent (ResultObj.plain tokensJson)] else []) ++
            [Event.call ⟨parameters.method, parameters.path, parameters.args,
               [("Content-Type", "application/json"),
                ("Authorization", "Bearer " ++
                  jsonToString (getField tokensJson "access_token"))]⟩],
          options := some (.oauth { cfg with
            refreshToken := getField tokensJson "refresh_token",
            accessToken := getField tokensJson "access_token" }) }) := by
  simp only [oauthRequest, getOAuthCfg, hopts, coinbaseRequest, h0, getOAuthAccessToken,
    requestNoAuth, requestWith, resolveRequest, substPathParts, splitSlash, splitSlashAux,
    startsWithColon, setOAuthTokens, resultField, unwrapResponse, hplain]
  simp only [h1]
  have hi : "/".intercalate ["", "oauth", "token"] = "/oauth/token" := rfl
  cases hcb : cfg.refreshCallback with
  | true =>
    simp only [hcb, if_true]
    cases h2 : s.oracle (s.k + 1 + 1) with
    | ok j => simp [h2, hplain, hcb, hi, List.append_assoc]
    | err status m => simp [h2, hplain, hcb, hi, List.append_assoc]
  | false =>
    simp only [hcb, Bool.false_eq_true, if_false]
    cases h2 : s.oracle (s.k + 1 + 1) with
    | ok j => simp [h2, hplain, hcb, hi, List.append_assoc]
    | err status m => simp [h2, hplain, hcb, hi, List.append_assoc]

set_option maxRecDepth 10000 in
/-- Claim C8: an API-key request first fetches the server time (one
unauthenticated GET `/v2/time`), then performs the call with exactly three
auth headers after `Content-Type`: the access key, the hex HMAC-SHA256 over
`timestamp ++ method ++ path ++ serializedBody` (empty string for no body)
keyed by the API secret, and the timestamp.  The fixture conjunct pins the
digest for secret `s` over `100GET/v2/time` to the precomputed vector. -/
theorem C8_apikey_signing (parameters : CoinbaseRequestArguments) (s : St)
    (keys : ApiKeyAuth) (timeResp : Json)
    (horacle : s.oracle s.k = TResult.ok timeResp) :
    (apiKeyRequest parameters keys s =
      ((match s.oracle (s.k + 1) with
        | TResult.ok j => Except.ok j
        | TResult.err status m => Except.error (JsError.requestError status m)),
       { s with
          k := s.k + 1 + 1,
          trace := s.trace ++
            [Event.call ⟨.GET, "/v2/time", none, [("Content-Type", "application/json")]⟩,
             Event.call ⟨parameters.method, parameters.path, parameters.args,
               [("Content-Type", "application/json"),
                ("CB-ACCESS-KEY", keys.apiKey),
                ("CB-ACCESS-SIGN", hmacSha256Hex keys.apiSecret
                  (jsonToString (resultField (unwrapResponse timeResp) "epoch") ++
                   methodString parameters.method ++ parameters.path ++
                   (match parameters.args with
                    | some b => jsonStringify (Json.obj b)
                    | none => ""))),
                ("CB-ACCESS-TIMESTAMP",
                  jsonToString (resultField (unwrapResponse timeResp) "epoch"))]⟩] }))
  ∧ hmacSha256Hex "s" "100GET/v2/time" =
      "de00f06a2aad3b674d30291c4f258c40d088809ab1f71c5b929b5be97d6492a8" := by
  constructor
  · simp only [apiKeyRequest, getTime, requestNoAuth, requestWith, resolveRequest,
      coinbaseRequest, horacle]
    cases h2 : s.oracle (s.k + 1) with
    | ok j => simp [h2, List.append_assoc]
    | err status m => simp [h2, List.append_assoc]
  · decide

/-- Claim C1, witness: the refresh flow run on the concrete fixture — 401,
successful refresh, second 401 — showing the four recorded events and the
updated token fields. -/
theorem C1_oauth_refresh_witness :
    (oauthFixtureSt.options = some (ClientOptions.oauth oauthFixtureCfg))
  ∧ oauthFixtureSt.oracle oauthFixtureSt.k = TResult.err 401 ["expired token"]
  ∧ oauthFixtureSt.oracle (oauthFixtureSt.k + 1) = TResult.ok oauthFixtureTokens
  ∧ truthy (getField oauthFixtureTokens "data") = false
  ∧ oauthRequest ⟨.GET, "/v2/user", none⟩ oauthFixtureSt =
      (Except.error (JsError.requestError 401 ["still invalid"]),
       ⟨oauthFixtureOracle, 3,
        [Event.call ⟨.GET, "/v2/user", none,
           [("Content-Type", "application/json"), ("Authorization", "Bearer oldA")]⟩,
         Event.call ⟨.POST, "/oauth/token",
           some [("grant_type", Json.str "refresh_token"),
                 ("refresh_token", Json.str "oldR"),
                 ("client_id", Json.str "cid"),
                 ("client_secret", Json.str "csec")],
           [("Content-Type", "application/json")]⟩,
         Event.refreshEvent (ResultObj.plain oauthFixtureTokens),
         Event.call ⟨.GET, "/v2/user", none,
           [("Content-Type", "application/json"), ("Authorization", "Bearer newA")]⟩],
        some (.oauth ⟨"cid", "csec", Json.str "newA", Json.str "newR", true⟩)⟩) :=
  ⟨rfl, rfl, rfl, rfl,
    C1_oauth_refresh ⟨.GET, "/v2/user", none⟩ oauthFixtureSt oauthFixtureCfg
      ["expired token"] oauthFixtureTokens rfl rfl rfl rfl⟩

/-- Claim C8, witness: the signing law applied to the concrete time fixture
(epoch 100), together with the pinned digest. -/
theorem C8_apikey_signing_witness :
    apiKeyFixtureSt.oracle apiKeyFixtureSt.k = TResult.ok apiKeyFixtureTime
  ∧ hmacSha256Hex "s" "100GET/v2/time" =
      "de00f06a2aad3b674d30291c4f258c40d088809ab1f71c5b929b5be97d6492a8" :=
  ⟨rfl, (C8_apikey_signing ⟨.GET, "/v2/time", none⟩ apiKeyFixtureSt ⟨"k", "s"⟩
      apiKeyFixtureTime rfl).2⟩

end Coinbase
